import Mathlib

/-!
Shallow embedding of the schematic in src/import-module-schematic/index.ts.

The file under verification reads one source file from an external tree,
parses it with the external TypeScript parser, and records up to two text
insertions (an import statement and an entry of the NgModule imports
array) before committing them. The parser and the tree abstraction are
external collaborators; they are modelled here by a parsing function that
is passed in as a parameter and by an association list of file contents.

Node kinds that the code never inspects beyond a type-guard test are
collapsed into catch-all constructors (otherArg, otherInit, ...); the
kinds the code does inspect carry exactly the data the code reads from
them (the text of a node as TypeScript getText returns it, and its end
offset as getEnd returns it).
-/

namespace ImportModuleSchematic

/-- Options record of the schematic. In the TypeScript source the three
fields are named module, import and from; the latter two are Lean
keywords, so they are named importedSymbol and importSource here. -/
structure Options where
  module : String
  importedSymbol : String
  importSource : String
deriving DecidableEq, Repr

/-- Callee of a decorator call expression: an identifier (with its text),
or any other expression kind. Models the isIdentifier test on
callExpression.expression together with the read of its text field. -/
inductive Callee where
  | identifier (text : String)
  | otherCallee
deriving DecidableEq, Repr

/-- Property name of an object-literal property. Models the isIdentifier
test on p.name and the read of its text field. -/
inductive PropName where
  | identifier (text : String)
  | otherName
deriving DecidableEq, Repr

/-- Element of an array literal. The code only calls getText and getEnd
on array elements, so an element is modelled by those two values. -/
structure ArrElem where
  text : String
  endPos : Nat
deriving DecidableEq, Repr

/-- Initializer of a property assignment: an array literal (the only kind
the code inspects, via isArrayLiteralExpression) or anything else. -/
inductive Initializer where
  | arrayLit (elements : List ArrElem)
  | otherInit
deriving DecidableEq, Repr

/-- Property of an object literal: a property assignment (the only kind
kept by the filter over isPropertyAssignment) or any other kind, such as
a spread element, a shorthand property or a method. -/
inductive ObjProp where
  | propertyAssignment (name : PropName) (initializer : Initializer)
  | otherProp
deriving DecidableEq, Repr

/-- Argument of a decorator call: an object literal (the only kind the
code inspects, via isObjectLiteralExpression) or any other expression. -/
inductive DecArg where
  | objectLit (props : List ObjProp)
  | otherArg
deriving DecidableEq, Repr

/-- Expression of a decorator: a call expression (with callee and
argument list) or any other expression kind. Models the isCallExpression
test on decorator.expression. -/
inductive DecExpr where
  | call (callee : Callee) (args : List DecArg)
  | otherExpr
deriving DecidableEq, Repr

/-- Decorator node: the code only reads its expression field. -/
structure Decorator where
  expression : DecExpr
deriving DecidableEq, Repr

/-- Named bindings of an import clause. The code only reads its text, via
getText, which yields the source slice such as a brace-enclosed name
list. -/
structure NamedBindings where
  text : String
deriving DecidableEq, Repr

/-- Import clause of an import declaration; namedBindings is absent for a
default-only or otherwise binding-free clause, modelling the optional
namedBindings field read through optional chaining. -/
structure ImportClause where
  namedBindings : Option NamedBindings
deriving DecidableEq, Repr

/-- Syntax-tree node, covering the shapes the code distinguishes:
the import declarations (isImportDeclaration; carrying the text of their
module specifier, their optional import clause and their end offset),
class declarations (isClassDeclaration; carrying their decorator list and
their forEachChild children), and every other node kind, which the
traversal only recurses through. -/
inductive TsNode where
  | importDecl (moduleSpecifierText : String) (importClause : Option ImportClause)
      (endPos : Nat)
  | classDecl (decorators : List Decorator) (children : List TsNode)
  | other (children : List TsNode)

/-- Parsed source file: its list of top-level statements, as
sourceFile.statements. The forEachChild traversal of the source-file node
visits exactly these statements. -/
structure SourceFile where
  statements : List TsNode

/-- Predicate ts.isImportDeclaration on a statement. -/
def isImportDeclaration : TsNode → Bool
  | .importDecl _ _ _ => true
  | _ => false

/-- Accessor getEnd, used by the code only on import declarations (whose
end offset the model stores); on other node kinds it is never applied and
defaults to 0. -/
def nodeEnd : TsNode → Nat
  | .importDecl _ _ e => e
  | _ => 0

/-- Per-statement import test from lines 26-30 of the source: the
statement is an import declaration, the text of its module specifier
equals the single-quoted importSource, and the text reached by
importClause?.namedBindings? equals the brace form of importedSymbol.
The optional chain is modelled with Option.bind: when the clause or its
named bindings are absent, the left side is none and the comparison with
some is false, exactly as a JavaScript comparison of undefined with a
string. -/
def matchesImport (options : Options) : TsNode → Bool
  | .importDecl spec clause _ =>
      spec == "\x27" ++ options.importSource ++ "\x27" &&
      ((clause.bind (fun c => c.namedBindings)).map (fun nb => nb.text) ==
        some ("\x7b " ++ options.importedSymbol ++ " \x7d"))
  | _ => false

/-- Decorator test from lines 77-79 of the source: the decorator
expression is a call whose callee is the bare identifier NgModule. -/
def isNgModuleDecorator (d : Decorator) : Bool :=
  match d.expression with
  | .call (.identifier t) _ => t == "NgModule"
  | _ => false

mutual

/-- Body of findNgModuleDecorator (lines 72-87): the visitor carries the
mutable ngModuleDecorator variable as an accumulator. On a class
declaration it scans the decorator list for the first NgModule call; a
hit overwrites the accumulator and skips the children of that class (the
early return); otherwise the traversal recurses through the children via
forEachChild. Note that the early return only leaves the callback, so
the sibling traversal continues and a later hit overwrites an earlier
one. -/
def visitNode (acc : Option Decorator) (n : TsNode) : Option Decorator :=
  match n with
  | .importDecl _ _ _ => acc
  | .classDecl decorators children =>
    match decorators.find? isNgModuleDecorator with
    | some d => some d
    | none => visitList acc children
  | .other children => visitList acc children

/-- Sequential forEachChild visit of a node list, threading the
accumulator left to right. -/
def visitList (acc : Option Decorator) (ns : List TsNode) : Option Decorator :=
  match ns with
  | [] => acc
  | n :: rest => visitList (visitNode acc n) rest

end

/-- Function findNgModuleDecorator (lines 69-92): run the visitor over
the source file; forEachChild of the file node visits its statements. -/
def findNgModuleDecorator (sourceFile : SourceFile) : Option Decorator :=
  visitList none sourceFile.statements

/-- JavaScript-level failures of the code: the deliberately thrown
SchematicsException, and the TypeError raised by reading a property of
undefined. -/
inductive SchemError where
  | schematicsException (msg : String)
  | typeError (msg : String)
deriving DecidableEq, Repr

/-- Function findImportsArray (lines 98-110). A non-call expression
yields undefined. On a call, arguments[0] of an empty argument list is
undefined, and isObjectLiteralExpression then reads .kind of undefined,
raising a TypeError. A first argument that is not an object literal
yields undefined. On an object literal, the properties are filtered to
property assignments and the first one whose name is the identifier
imports supplies the result, its initializer; otherwise undefined. -/
def findImportsArray (decorator : Decorator) : Except SchemError (Option Initializer) :=
  match decorator.expression with
  | .otherExpr => .ok none
  | .call _ args =>
    match args.head? with
    | none => .error (.typeError "Cannot read properties of undefined (reading kind)")
    | some .otherArg => .ok none
    | some (.objectLit props) =>
      match props.findSome? (fun p =>
        match p with
        | .propertyAssignment (.identifier t) init =>
            if t == "imports" then some init else none
        | _ => none) with
      | some init => .ok (some init)
      | none => .ok none

/-- Side of a recorded insertion: insertLeft or insertRight of the update
recorder. -/
inductive Side where
  | left
  | right
deriving DecidableEq, Repr

/-- Recorded text insertion: side, position in the original text, and
inserted text. -/
structure Insertion where
  side : Side
  pos : Nat
  text : String
deriving DecidableEq, Repr

/-- Test that an insertion is an insertLeft. -/
def isLeftIns (i : Insertion) : Bool := i.side == Side.left

/-- Test that an insertion is an insertRight. -/
def isRightIns (i : Insertion) : Bool := i.side == Side.right

/-- Text of the inserted import statement (line 39 of the source). -/
def insertedImportText (options : Options) : String :=
  "\nimport \x7b " ++ options.importedSymbol ++ " \x7d from \x27" ++
    options.importSource ++ "\x27;\n"

/-- Anchor of the import insertion (lines 35-36): end offset of the last
top-level import declaration, or 0 when there is none; the filtered-list
pop of the source is the last element of the filtered statement list. -/
def importInsertPosition (sourceFile : SourceFile) : Nat :=
  match (sourceFile.statements.filter isImportDeclaration).getLast? with
  | some st => nodeEnd st
  | none => 0

/-- Import-side insertions recorded by lines 33-41: none when the import
already exists, otherwise the single insertLeft of the import statement
at the anchor position. -/
def importInsertions (sourceFile : SourceFile) (options : Options) : List Insertion :=
  if sourceFile.statements.any (matchesImport options) then []
  else [⟨Side.left, importInsertPosition sourceFile, insertedImportText options⟩]

/-- Array-side insertions recorded by lines 44-55. When no NgModule
decorator is found, or the imports property is absent, or its value is
not an array literal, nothing is recorded. On an array literal whose
elements already contain the symbol textually, nothing is recorded.
Otherwise the code reads elements[elements.length - 1]; on an empty
array that index is undefined and getEnd on it raises a TypeError; on a
nonempty array the single insertRight is recorded after the last
element. A TypeError of findImportsArray propagates. -/
def arrayInsertion (sourceFile : SourceFile) (options : Options) :
    Except SchemError (List Insertion) :=
  match findNgModuleDecorator sourceFile with
  | none => .ok []
  | some dec =>
    match findImportsArray dec with
    | .error e => .error e
    | .ok found =>
      match found with
      | some (Initializer.arrayLit elements) =>
        if elements.any (fun el => el.text == options.importedSymbol) then .ok []
        else
          match elements.getLast? with
          | none => .error (.typeError "Cannot read properties of undefined (reading getEnd)")
          | some lastEl =>
              .ok [⟨Side.right, lastEl.endPos, ",\n    " ++ options.importedSymbol⟩]
      | _ => .ok []

/-- External tree abstraction, modelled as an association list from path
to content. -/
structure Tree where
  files : List (String × String)
deriving DecidableEq, Repr

/-- Read of the tree: content of the first entry with the given path, or
none when absent. -/
def Tree.read (t : Tree) (path : String) : Option String :=
  (t.files.find? (fun f => f.1 == path)).map (fun f => f.2)

/-- Write of the tree, as commitUpdate makes it observable: every entry
with the given path now holds the new content. -/
def Tree.write (t : Tree) (path content : String) : Tree :=
  ⟨t.files.map (fun f => if f.1 == path then (f.1, content) else f)⟩

/-- Splice of a text into a content string at a character position. -/
def spliceAt (s : String) (pos : Nat) (ins : String) : String :=
  s.take pos ++ ins ++ s.drop pos

/-- Application of the recorded insertions by the external recorder, for
an insertion list whose positions are nondecreasing (as recorded by this
code: the import anchor never exceeds the array anchor it is combined
with): splicing from the last insertion backwards keeps every earlier
position valid in the original coordinates. -/
def applyInsertions (content : String) (ins : List Insertion) : String :=
  ins.foldr (fun i acc => spliceAt acc i.pos i.text) content

/-- Observable outcome of one run of the rule: whether beginUpdate
happened, which insertions were recorded, whether commitUpdate happened,
and the result — the updated tree, or the propagated exception (in which
case the recorder was never committed and the tree is unchanged). -/
structure Outcome where
  began : Bool
  recorded : List Insertion
  committed : Bool
  result : Except SchemError Tree

/-- Function importAndAddModule (lines 14-61), parameterized by the
external parser createSourceFile. A missing file raises the
SchematicsException before beginUpdate. Otherwise the file is parsed,
the import-side insertions are recorded, then the array side runs: its
TypeError (empty argument list or empty array literal) propagates before
commitUpdate, leaving the tree unchanged; otherwise all recorded
insertions are committed to the file. -/
def importAndAddModule (createSourceFile : String → SourceFile)
    (options : Options) (tree : Tree) : Outcome :=
  match tree.read options.module with
  | none =>
    { began := false, recorded := [], committed := false,
      result := .error (.schematicsException
        ("File " ++ options.module ++ " does not exist.")) }
  | some sourceText =>
    match arrayInsertion (createSourceFile sourceText) options with
    | .error e =>
      { began := true,
        recorded := importInsertions (createSourceFile sourceText) options,
        committed := false, result := .error e }
    | .ok arrIns =>
      { began := true,
        recorded := importInsertions (createSourceFile sourceText) options ++ arrIns,
        committed := true,
        result := .ok (tree.write options.module
          (applyInsertions sourceText
            (importInsertions (createSourceFile sourceText) options ++ arrIns))) }

/-!
Helper lemmas.
-/

/-- Insertions produced by the array side are all insertRight, and carry
the fixed inserted text. -/
theorem arrayInsertion_shape (sourceFile : SourceFile) (options : Options)
    (l : List Insertion) (h : arrayInsertion sourceFile options = .ok l) :
    l = [] ∨ ∃ p, l = [⟨Side.right, p, ",\n    " ++ options.importedSymbol⟩] := by
  unfold arrayInsertion at h
  repeat' split at h
  all_goals first
    | (exact Or.inl (by injection h with h; exact h.symm))
    | (exact Or.inr ⟨_, by injection h with h; exact h.symm⟩)
    | (cases h)

/-- Filtering the array-side insertions: no insertLeft among them, and
filtering for insertRight keeps them all. -/
theorem arrayInsertion_filter (sourceFile : SourceFile) (options : Options)
    (l : List Insertion) (h : arrayInsertion sourceFile options = .ok l) :
    l.filter isLeftIns = [] ∧ l.filter isRightIns = l := by
  rcases arrayInsertion_shape sourceFile options l h with h0 | ⟨p, h1⟩
  · subst h0; exact ⟨rfl, rfl⟩
  · subst h1; exact ⟨rfl, rfl⟩

/-- Filtering the import-side insertions: all are insertLeft, and they
are empty exactly when a statement passes the import test. -/
theorem importInsertions_filter (sourceFile : SourceFile) (options : Options) :
    (importInsertions sourceFile options).filter isLeftIns =
        importInsertions sourceFile options ∧
    (importInsertions sourceFile options).filter isRightIns = [] ∧
    (importInsertions sourceFile options = [] ↔
      sourceFile.statements.any (matchesImport options) = true) := by
  unfold importInsertions
  by_cases h : sourceFile.statements.any (matchesImport options)
  · rw [if_pos h]; simp [h]
  · rw [if_neg h]; simp [isLeftIns, isRightIns]
    simpa using h

/-- Reading any other path is unaffected by a write. -/
theorem read_write_ne (t : Tree) (path c p : String) (hp : p ≠ path) :
    (t.write path c).read p = t.read p := by
  obtain ⟨files⟩ := t
  induction files with
  | nil => rfl
  | cons a rest ih =>
    simp only [Tree.write, Tree.read, List.map_cons, List.find?_cons] at *
    by_cases h1 : a.1 == path
    · have hane : (a.1 == p) = false := by
        refine beq_eq_false_iff_ne.mpr ?_
        intro hcon
        exact hp (hcon ▸ (beq_iff_eq.mp h1))
      rw [if_pos h1]
      simp only [hane, cond_false]
      exact ih
    · rw [if_neg (by simpa using h1)]
      by_cases h2 : a.1 == p
      · simp [h2]
      · simp only [Bool.not_eq_true] at h2
        simp only [h2, cond_false]
        exact ih

/-- Reading the written path yields the new content whenever the path was
present. -/
theorem read_write_self (t : Tree) (path c : String) :
    (t.write path c).read path = (t.read path).map (fun _ => c) := by
  obtain ⟨files⟩ := t
  induction files with
  | nil => rfl
  | cons a rest ih =>
    simp only [Tree.write, Tree.read, List.map_cons, List.find?_cons] at *
    by_cases h1 : a.1 == path
    · rw [if_pos h1]
      simp [h1]
    · rw [if_neg (by simpa using h1)]
      simp only [Bool.not_eq_true] at h1
      simp only [h1, cond_false]
      exact ih

/-- Writing back the content that the path already holds changes no read
at all. -/
theorem read_write_of_read (t : Tree) (path c : String)
    (h : t.read path = some c) (p : String) :
    (t.write path c).read p = t.read p := by
  by_cases hp : p = path
  · subst hp
    rw [read_write_self, h]
    rfl
  · exact read_write_ne t path c p hp

/-- Applying no insertions leaves the content unchanged. -/
theorem applyInsertions_nil (content : String) :
    applyInsertions content [] = content := rfl

/-- Characterization of a run on a readable file: beginUpdate happened
and the recorded insertions are the import-side ones followed by the
array-side ones, the latter taken as empty when the array side raised. -/
theorem run_recorded (createSourceFile : String → SourceFile) (options : Options)
    (tree : Tree) (text : String) (h : tree.read options.module = some text) :
    (importAndAddModule createSourceFile options tree).began = true ∧
    (importAndAddModule createSourceFile options tree).recorded =
      importInsertions (createSourceFile text) options ++
        (match arrayInsertion (createSourceFile text) options with
          | .ok l => l
          | .error _ => []) := by
  unfold importAndAddModule
  rw [h]
  rcases har : arrayInsertion (createSourceFile text) options with e | l
  · simp [har]
  · simp [har]

/-- Characterization of a run whose array side succeeds: everything is
committed and the result writes the spliced text back. -/
theorem run_ok (createSourceFile : String → SourceFile) (options : Options)
    (tree : Tree) (text : String) (h : tree.read options.module = some text)
    (l : List Insertion)
    (har : arrayInsertion (createSourceFile text) options = .ok l) :
    (importAndAddModule createSourceFile options tree).committed = true ∧
    (importAndAddModule createSourceFile options tree).recorded =
      importInsertions (createSourceFile text) options ++ l ∧
    (importAndAddModule createSourceFile options tree).result =
      .ok (tree.write options.module (applyInsertions text
        (importInsertions (createSourceFile text) options ++ l))) := by
  unfold importAndAddModule
  rw [h]
  simp only [har]
  exact ⟨trivial, trivial, trivial⟩

/-- Characterization of a run whose array side raises: the import-side
insertions were recorded but nothing is committed and the error
propagates. -/
theorem run_error (createSourceFile : String → SourceFile) (options : Options)
    (tree : Tree) (text : String) (h : tree.read options.module = some text)
    (e : SchemError)
    (har : arrayInsertion (createSourceFile text) options = .error e) :
    (importAndAddModule createSourceFile options tree).committed = false ∧
    (importAndAddModule createSourceFile options tree).recorded =
      importInsertions (createSourceFile text) options ∧
    (importAndAddModule createSourceFile options tree).result = .error e := by
  unfold importAndAddModule
  rw [h]
  simp only [har]
  exact ⟨trivial, trivial, trivial⟩

/-!
Concrete scenarios. Each demo source file is stated together with the
TypeScript text it is the parse of; offsets are character offsets into
that text (all texts are ASCII, so TypeScript code-unit offsets agree
with character offsets).
-/

/-- Base text: one import of A from a, a blank line, one class decorated
with NgModule whose imports array holds A. The import declaration ends at
offset 22 and the array element A ends at offset 47. -/
def baseText : String :=
  "import \x7b A \x7d from \x27a\x27;\n\n@NgModule(\x7b imports: [A] \x7d)\nclass M \x7b\x7d"

/-- Decorator of the base text: NgModule called on an object literal
whose imports property holds the one-element array [A]. -/
def baseDecorator : Decorator :=
  ⟨.call (.identifier "NgModule")
    [.objectLit [.propertyAssignment (.identifier "imports")
      (.arrayLit [⟨"A", 47⟩])]]⟩

/-- Parse of the base text. -/
def baseSf : SourceFile :=
  ⟨[.importDecl "\x27a\x27" (some ⟨some ⟨"\x7b A \x7d"⟩⟩) 22,
    .classDecl [baseDecorator] []]⟩

/-- Parser of the base scenario: every read text is the base text. -/
def baseParse : String → SourceFile := fun _ => baseSf

/-- Tree of the base scenario, holding the base text at m.ts. -/
def baseTree : Tree := ⟨[("m.ts", baseText)]⟩

/-- Text of the empty-imports-array scenario. -/
def emptyArrText : String :=
  "@NgModule(\x7b imports: [] \x7d)\nclass M \x7b\x7d"

/-- Parse of the empty-imports-array text: one decorated class whose
imports property holds the empty array literal. -/
def emptyArrSf : SourceFile :=
  ⟨[.classDecl
    [⟨.call (.identifier "NgModule")
      [.objectLit [.propertyAssignment (.identifier "imports")
        (.arrayLit [])]]⟩] []]⟩

/-- Parser of the empty-imports-array scenario. -/
def emptyArrParse : String → SourceFile := fun _ => emptyArrSf

/-- Tree of the empty-imports-array scenario. -/
def emptyArrTree : Tree := ⟨[("empty.ts", emptyArrText)]⟩

/-- Options of the empty-imports-array scenario: add B from b. -/
def emptyArrOpts : Options := ⟨"empty.ts", "B", "b"⟩

/-- Text with two NgModule-decorated classes: the first one with array
[A] (element ending at offset 23), the second one with array [B]
(element ending at offset 63). -/
def twoText : String :=
  "@NgModule(\x7b imports: [A] \x7d)\nclass M1 \x7b\x7d\n@NgModule(\x7b imports: [B] \x7d)\nclass M2 \x7b\x7d"

/-- Decorator of the first class of the two-class text. -/
def twoDecA : Decorator :=
  ⟨.call (.identifier "NgModule")
    [.objectLit [.propertyAssignment (.identifier "imports")
      (.arrayLit [⟨"A", 23⟩])]]⟩

/-- Decorator of the second class of the two-class text. -/
def twoDecB : Decorator :=
  ⟨.call (.identifier "NgModule")
    [.objectLit [.propertyAssignment (.identifier "imports")
      (.arrayLit [⟨"B", 63⟩])]]⟩

/-- Parse of the two-class text. -/
def twoSf : SourceFile :=
  ⟨[.classDecl [twoDecA] [], .classDecl [twoDecB] []]⟩

/-- Parser of the two-class scenario. -/
def twoParse : String → SourceFile := fun _ => twoSf

/-- Tree of the two-class scenario. -/
def twoTree : Tree := ⟨[("two.ts", twoText)]⟩

/-- Options of the two-class scenario: add C from c. -/
def twoOpts : Options := ⟨"two.ts", "C", "c"⟩

/-- Decorator call with zero arguments, as written @NgModule(). -/
def zeroArgDecorator : Decorator := ⟨.call (.identifier "NgModule") []⟩

/-- Parse of the zero-argument-decorator text
@NgModule()(newline)class M (braces). -/
def zeroArgSf : SourceFile := ⟨[.classDecl [zeroArgDecorator] []]⟩

/-- Parser of the zero-argument-decorator scenario. -/
def zeroArgParse : String → SourceFile := fun _ => zeroArgSf

/-- Tree of the zero-argument-decorator scenario. -/
def zeroArgTree : Tree := ⟨[("zero.ts", "@NgModule()\nclass M \x7b\x7d")]⟩

/-- Options of the zero-argument-decorator scenario. -/
def zeroArgOpts : Options := ⟨"zero.ts", "B", "b"⟩

/-- Options used against the base scenario for the idempotence witness:
add the single identifier B from b. -/
def idemOpts : Options := ⟨"m.ts", "B", "b"⟩

/-- Text produced by one run of the base scenario with idemOpts: an
added import of B is spliced in at offset 22 and the array entry B at
offset 47. In this text the second import declaration ends at offset 45 and the
array elements A and B end at offsets 71 and 78. -/
def idemText2 : String :=
  "import \x7b A \x7d from \x27a\x27;\nimport \x7b B \x7d from \x27b\x27;\n\n\n@NgModule(\x7b imports: [A,\n    B] \x7d)\nclass M \x7b\x7d"

/-- Parse of idemText2. -/
def idemSf2 : SourceFile :=
  ⟨[.importDecl "\x27a\x27" (some ⟨some ⟨"\x7b A \x7d"⟩⟩) 22,
    .importDecl "\x27b\x27" (some ⟨some ⟨"\x7b B \x7d"⟩⟩) 45,
    .classDecl
      [⟨.call (.identifier "NgModule")
        [.objectLit [.propertyAssignment (.identifier "imports")
          (.arrayLit [⟨"A", 71⟩, ⟨"B", 78⟩])]]⟩] []]⟩

/-- Parser of the idempotence witness: the base text parses to baseSf and
the once-transformed text to idemSf2. -/
def idemParse : String → SourceFile :=
  fun t => if t == idemText2 then idemSf2 else baseSf

/-- Tree after the first run of the idempotence witness. -/
def idemTree2 : Tree := ⟨[("m.ts", idemText2)]⟩

/-- Options of the idempotence counterexample: the symbol field holds
the composite string A, B rather than a single identifier. -/
def cexOpts : Options := ⟨"m.ts", "A, B", "b"⟩

/-- Text produced by one run of the base scenario with cexOpts. In this
text the array reads [A,(newline four spaces)A, B], which parses as the
three elements A, A and B ending at offsets 74, 81 and 84; the second of
the import declarations ends at offset 48. -/
def cexText2 : String :=
  "import \x7b A \x7d from \x27a\x27;\nimport \x7b A, B \x7d from \x27b\x27;\n\n\n@NgModule(\x7b imports: [A,\n    A, B] \x7d)\nclass M \x7b\x7d"

/-- Parse of cexText2. -/
def cexSf2 : SourceFile :=
  ⟨[.importDecl "\x27a\x27" (some ⟨some ⟨"\x7b A \x7d"⟩⟩) 22,
    .importDecl "\x27b\x27" (some ⟨some ⟨"\x7b A, B \x7d"⟩⟩) 48,
    .classDecl
      [⟨.call (.identifier "NgModule")
        [.objectLit [.propertyAssignment (.identifier "imports")
          (.arrayLit [⟨"A", 74⟩, ⟨"A", 81⟩, ⟨"B", 84⟩])]]⟩] []]⟩

/-- Parser of the idempotence counterexample. -/
def cexParse : String → SourceFile :=
  fun t => if t == cexText2 then cexSf2 else baseSf

/-- Tree after the first run of the counterexample. -/
def cexTree2 : Tree := ⟨[("m.ts", cexText2)]⟩

/-- Text produced by the second run of the counterexample: a second copy
of A, B is appended to the array. -/
def cexText3 : String :=
  "import \x7b A \x7d from \x27a\x27;\nimport \x7b A, B \x7d from \x27b\x27;\n\n\n@NgModule(\x7b imports: [A,\n    A, B,\n    A, B] \x7d)\nclass M \x7b\x7d"

/-- Tree after the second run of the counterexample. -/
def cexTree3 : Tree := ⟨[("m.ts", cexText3)]⟩

/-!
Claim theorems.
-/

/-- C1: evidence against the empty-array claim. On the file holding
@NgModule with an empty imports array and a class M, with options adding
B from b, the array-entry insertion is indeed not performed, but the
operation does not complete without error: the code reads the last
element of the empty array literal, which is undefined, and calling
getEnd on it raises a TypeError, so nothing is ever committed. -/
theorem emptyImportsArray_typeError :
    (importAndAddModule emptyArrParse emptyArrOpts emptyArrTree).result =
      .error (.typeError "Cannot read properties of undefined (reading getEnd)") ∧
    (importAndAddModule emptyArrParse emptyArrOpts emptyArrTree).committed = false :=
  ⟨rfl, rfl⟩

/-- C2: evidence against the first-decorator claim. On a file with two
NgModule-decorated classes, the search returns the decorator of the
second (last) class, not the first one: the early return only leaves the
visitor callback, so the sibling traversal continues and a later match
overwrites an earlier one. The full run then records its array edit at
offset 63, the end of element B inside the second class's array. -/
theorem lastNgModuleDecoratorWins :
    findNgModuleDecorator twoSf = some twoDecB ∧
    twoDecB ≠ twoDecA ∧
    (importAndAddModule twoParse twoOpts twoTree).recorded =
      [⟨Side.left, 0, "\nimport \x7b C \x7d from \x27c\x27;\n"⟩,
       ⟨Side.right, 63, ",\n    C"⟩] :=
  ⟨rfl, by decide, rfl⟩

/-- C3: evidence against the zero-argument part of the claim. On a
decorator call with zero arguments, arguments[0] is undefined and the
isObjectLiteralExpression test reads .kind of undefined, raising a
TypeError instead of yielding not-found; the full run on the file
@NgModule() class M propagates that error and commits nothing. -/
theorem zeroArgDecorator_typeError :
    findImportsArray zeroArgDecorator =
      .error (.typeError "Cannot read properties of undefined (reading kind)") ∧
    (importAndAddModule zeroArgParse zeroArgOpts zeroArgTree).result =
      .error (.typeError "Cannot read properties of undefined (reading kind)") ∧
    (importAndAddModule zeroArgParse zeroArgOpts zeroArgTree).committed = false :=
  ⟨rfl, rfl, rfl⟩

/-- C4: when the target path cannot be read from the tree, the run fails
with the single file-does-not-exist SchematicsException, before any
parsing or editing: no beginUpdate, no insertion and no commit happen,
and the input tree is returned unmodified inside the error outcome. -/
theorem missingFile_aborts_unchanged (createSourceFile : String → SourceFile)
    (options : Options) (tree : Tree) (h : tree.read options.module = none) :
    importAndAddModule createSourceFile options tree =
      { began := false, recorded := [], committed := false,
        result := .error (.schematicsException
          ("File " ++ options.module ++ " does not exist.")) } := by
  unfold importAndAddModule
  rw [h]

/-- Witness for C4 at a concrete input: an empty tree and the path
app.ts. -/
theorem missingFile_aborts_unchanged_witness :
    importAndAddModule (fun _ => SourceFile.mk []) ⟨"app.ts", "B", "b"⟩ ⟨[]⟩ =
      { began := false, recorded := [], committed := false,
        result := .error (.schematicsException "File app.ts does not exist.") } :=
  missingFile_aborts_unchanged (fun _ => SourceFile.mk []) ⟨"app.ts", "B", "b"⟩ ⟨[]⟩ rfl

/-- C5: the import insertion is skipped (no insertLeft recorded) exactly
when some top-level statement of the parsed file is an import
declaration whose module-specifier text equals the single-quoted
importSource and whose named-bindings text equals the single-name brace
form of importedSymbol — the exact textual test matchesImport. -/
theorem importSkip_iff_exactTextualMatch (createSourceFile : String → SourceFile)
    (options : Options) (tree : Tree) (text : String)
    (h : tree.read options.module = some text) :
    ((importAndAddModule createSourceFile options tree).recorded.filter isLeftIns = [] ↔
      ∃ st ∈ (createSourceFile text).statements, matchesImport options st = true) := by
  obtain ⟨-, hrec⟩ := run_recorded createSourceFile options tree text h
  rw [hrec, List.filter_append]
  obtain ⟨hl, -, hiff⟩ := importInsertions_filter (createSourceFile text) options
  have harrf : (match arrayInsertion (createSourceFile text) options with
      | .ok l => l
      | .error _ => []).filter isLeftIns = [] := by
    rcases har : arrayInsertion (createSourceFile text) options with e | l
    · rfl
    · exact (arrayInsertion_filter _ _ _ har).1
  rw [hl, harrf, List.append_nil, hiff, List.any_eq_true]

/-- Witness for C5 at a concrete input: the base scenario with options
that match its existing import of A from a. -/
theorem importSkip_iff_exactTextualMatch_witness :
    ((importAndAddModule baseParse ⟨"m.ts", "A", "a"⟩ baseTree).recorded.filter
        isLeftIns = [] ↔
      ∃ st ∈ (baseParse baseText).statements,
        matchesImport ⟨"m.ts", "A", "a"⟩ st = true) :=
  importSkip_iff_exactTextualMatch baseParse ⟨"m.ts", "A", "a"⟩ baseTree baseText rfl

/-- C6: when no statement passes the import test, exactly one insertLeft
is recorded, whose text is the newline-wrapped import statement and
whose position is the end offset of the last top-level import
declaration, or 0 when the file has none. -/
theorem importInsertion_anchor_and_text (createSourceFile : String → SourceFile)
    (options : Options) (tree : Tree) (text : String)
    (h : tree.read options.module = some text)
    (hmiss : ¬ ∃ st ∈ (createSourceFile text).statements,
      matchesImport options st = true) :
    (importAndAddModule createSourceFile options tree).recorded.filter isLeftIns =
      [⟨Side.left,
        (match ((createSourceFile text).statements.filter isImportDeclaration).getLast? with
          | some st => nodeEnd st
          | none => 0),
        "\nimport \x7b " ++ options.importedSymbol ++ " \x7d from \x27" ++
          options.importSource ++ "\x27;\n"⟩] := by
  have hany : (createSourceFile text).statements.any (matchesImport options) = false := by
    rw [← Bool.not_eq_true, List.any_eq_true]
    exact hmiss
  obtain ⟨-, hrec⟩ := run_recorded createSourceFile options tree text h
  rw [hrec, List.filter_append]
  obtain ⟨hl, -, -⟩ := importInsertions_filter (createSourceFile text) options
  have harrf : (match arrayInsertion (createSourceFile text) options with
      | .ok l => l
      | .error _ => []).filter isLeftIns = [] := by
    rcases har : arrayInsertion (createSourceFile text) options with e | l
    · rfl
    · exact (arrayInsertion_filter _ _ _ har).1
  rw [hl, harrf, List.append_nil]
  unfold importInsertions
  rw [hany]
  rfl

/-- Witness for C6 at a concrete input: the base scenario with options
adding B from b, which no existing import matches; the recorded
insertion sits at offset 22, the end of the only import declaration. -/
theorem importInsertion_anchor_and_text_witness :
    (importAndAddModule baseParse ⟨"m.ts", "B", "b"⟩ baseTree).recorded.filter
        isLeftIns =
      [⟨Side.left,
        (match ((baseParse baseText).statements.filter isImportDeclaration).getLast? with
          | some st => nodeEnd st
          | none => 0),
        "\nimport \x7b B \x7d from \x27b\x27;\n"⟩] :=
  importInsertion_anchor_and_text baseParse ⟨"m.ts", "B", "b"⟩ baseTree baseText rfl
    (by decide)

/-- C7: for a located imports array literal with at least one element,
the run commits, the array-entry insertion is skipped exactly when some
element's exact text equals importedSymbol, and otherwise exactly one
insertRight is recorded, at the end offset of the last element, with the
comma-newline-indent text. -/
theorem arrayEditSkip_iff_member (createSourceFile : String → SourceFile)
    (options : Options) (tree : Tree) (text : String)
    (h : tree.read options.module = some text)
    (dec : Decorator) (elements : List ArrElem)
    (hdec : findNgModuleDecorator (createSourceFile text) = some dec)
    (hfia : findImportsArray dec = .ok (some (Initializer.arrayLit elements)))
    (hne : elements ≠ []) :
    (importAndAddModule createSourceFile options tree).committed = true ∧
    ((importAndAddModule createSourceFile options tree).recorded.filter isRightIns = []
      ↔ ∃ el ∈ elements, el.text = options.importedSymbol) ∧
    ((¬ ∃ el ∈ elements, el.text = options.importedSymbol) →
      ∃ lastEl, elements.getLast? = some lastEl ∧
        (importAndAddModule createSourceFile options tree).recorded.filter isRightIns =
          [⟨Side.right, lastEl.endPos, ",\n    " ++ options.importedSymbol⟩]) := by
  by_cases hany : elements.any (fun el => el.text == options.importedSymbol)
  · have har : arrayInsertion (createSourceFile text) options = .ok [] := by
      unfold arrayInsertion
      simp only [hdec, hfia]
      simp [hany]
    obtain ⟨hcom, hrec, -⟩ := run_ok createSourceFile options tree text h [] har
    have hex : ∃ el ∈ elements, el.text = options.importedSymbol := by
      obtain ⟨el, hmem, heq⟩ := List.any_eq_true.mp hany
      exact ⟨el, hmem, beq_iff_eq.mp heq⟩
    refine ⟨hcom, ?_, fun habs => absurd hex habs⟩
    rw [hrec, List.filter_append]
    obtain ⟨-, hr0, -⟩ := importInsertions_filter (createSourceFile text) options
    rw [hr0]
    simpa using hex
  · obtain ⟨lastEl, hlast⟩ : ∃ lastEl, elements.getLast? = some lastEl := by
      have := List.getLast?_isSome.mpr hne
      exact Option.isSome_iff_exists.mp this
    have har : arrayInsertion (createSourceFile text) options =
        .ok [⟨Side.right, lastEl.endPos, ",\n    " ++ options.importedSymbol⟩] := by
      unfold arrayInsertion
      simp only [hdec, hfia]
      simp only [Bool.not_eq_true] at hany
      simp [hany, hlast]
    obtain ⟨hcom, hrec, -⟩ := run_ok createSourceFile options tree text h _ har
    have hnex : ¬ ∃ el ∈ elements, el.text = options.importedSymbol := by
      rintro ⟨el, hmem, heq⟩
      exact hany (List.any_eq_true.mpr ⟨el, hmem, beq_iff_eq.mpr heq⟩)
    have hfil : (importAndAddModule createSourceFile options tree).recorded.filter
        isRightIns =
        [⟨Side.right, lastEl.endPos, ",\n    " ++ options.importedSymbol⟩] := by
      rw [hrec, List.filter_append]
      obtain ⟨-, hr0, -⟩ := importInsertions_filter (createSourceFile text) options
      rw [hr0]
      simp [isRightIns]
    refine ⟨hcom, ?_, fun _ => ⟨lastEl, hlast, hfil⟩⟩
    rw [hfil]
    constructor
    · intro hcon
      cases hcon
    · intro hex
      exact absurd hex hnex

/-- Witness for C7 at a concrete input: the base scenario with options
adding B from b; the array [A] does not contain B, so one insertRight is
recorded at offset 47. -/
theorem arrayEditSkip_iff_member_witness :
    (importAndAddModule baseParse ⟨"m.ts", "B", "b"⟩ baseTree).committed = true ∧
    ((importAndAddModule baseParse ⟨"m.ts", "B", "b"⟩ baseTree).recorded.filter
        isRightIns = []
      ↔ ∃ el ∈ [ArrElem.mk "A" 47], el.text = "B") ∧
    ((¬ ∃ el ∈ [ArrElem.mk "A" 47], el.text = "B") →
      ∃ lastEl, [ArrElem.mk "A" 47].getLast? = some lastEl ∧
        (importAndAddModule baseParse ⟨"m.ts", "B", "b"⟩ baseTree).recorded.filter
            isRightIns =
          [⟨Side.right, lastEl.endPos, ",\n    " ++ "B"⟩]) :=
  arrayEditSkip_iff_member baseParse ⟨"m.ts", "B", "b"⟩ baseTree baseText rfl
    baseDecorator [ArrElem.mk "A" 47] rfl rfl (by decide)

set_option maxRecDepth 8000 in
/-- C8, as stated, is false: with the composite symbol option A, B the
first application succeeds, but the second application on the resulting
text inserts a second array entry, because the first insertion re-parses
as the two elements A and B, neither of whose texts equals A, B. The
first run maps the base tree to cexTree2 and the second run maps
cexTree2 to the strictly different cexTree3. -/
theorem doubleApplication_differs :
    (importAndAddModule cexParse cexOpts baseTree).result = .ok cexTree2 ∧
    (importAndAddModule cexParse cexOpts cexTree2).result = .ok cexTree3 ∧
    cexTree3 ≠ cexTree2 :=
  ⟨rfl, rfl, by decide⟩

/-- C8 amended: a second application leaves the once-transformed text
unchanged provided the re-parse of that text reflects the first
application's edits — some top-level statement passes the exact import
test, and the array side of the re-parse yields no insertion and no
error (the decorator is absent, or the array is absent, or some element
text equals importedSymbol). The TypeScript parser guarantees these for
a single-identifier importedSymbol and a plain importSource, but not for
composite strings such as A, B. -/
theorem idempotent_under_reparse (parse1 parse2 : String → SourceFile)
    (options : Options) (tree tree2 : Tree) (text2 : String)
    (_h1 : (importAndAddModule parse1 options tree).result = .ok tree2)
    (h2 : tree2.read options.module = some text2)
    (himp : ∃ st ∈ (parse2 text2).statements, matchesImport options st = true)
    (harr : arrayInsertion (parse2 text2) options = .ok []) :
    (importAndAddModule parse2 options tree2).result =
      .ok (tree2.write options.module text2) ∧
    ∀ p, (tree2.write options.module text2).read p = tree2.read p := by
  have himpb : (parse2 text2).statements.any (matchesImport options) = true :=
    List.any_eq_true.mpr himp
  have hii : importInsertions (parse2 text2) options = [] :=
    (importInsertions_filter (parse2 text2) options).2.2.mpr himpb
  obtain ⟨-, -, hres⟩ := run_ok parse2 options tree2 text2 h2 [] harr
  rw [hii] at hres
  refine ⟨hres, read_write_of_read tree2 options.module text2 h2⟩

set_option maxRecDepth 8000 in
/-- Witness for C8 amended at a concrete input: the base scenario with
the single identifier B; the first run produces idemTree2 and the second
run returns it unchanged. -/
theorem idempotent_under_reparse_witness :
    (importAndAddModule idemParse idemOpts idemTree2).result =
      .ok (idemTree2.write idemOpts.module idemText2) ∧
    ∀ p, (idemTree2.write idemOpts.module idemText2).read p = idemTree2.read p :=
  idempotent_under_reparse idemParse idemParse idemOpts baseTree idemTree2 idemText2
    rfl rfl (by decide) rfl

/-- C9: when some statement already passes the exact import test and the
located imports array already holds an element whose text equals
importedSymbol, nothing is recorded at all and the committed file text is
byte-identical to the input: every read of the resulting tree equals the
corresponding read of the input tree. -/
theorem bothPresent_noChange (createSourceFile : String → SourceFile)
    (options : Options) (tree : Tree) (text : String)
    (h : tree.read options.module = some text)
    (himp : ∃ st ∈ (createSourceFile text).statements, matchesImport options st = true)
    (dec : Decorator) (elements : List ArrElem)
    (hdec : findNgModuleDecorator (createSourceFile text) = some dec)
    (hfia : findImportsArray dec = .ok (some (Initializer.arrayLit elements)))
    (hel : ∃ el ∈ elements, el.text = options.importedSymbol) :
    (importAndAddModule createSourceFile options tree).recorded = [] ∧
    (importAndAddModule createSourceFile options tree).result =
      .ok (tree.write options.module text) ∧
    ∀ p, (tree.write options.module text).read p = tree.read p := by
  have hany : elements.any (fun el => el.text == options.importedSymbol) = true := by
    obtain ⟨el, hmem, heq⟩ := hel
    exact List.any_eq_true.mpr ⟨el, hmem, beq_iff_eq.mpr heq⟩
  have har : arrayInsertion (createSourceFile text) options = .ok [] := by
    unfold arrayInsertion
    simp only [hdec, hfia]
    simp [hany]
  have hii : importInsertions (createSourceFile text) options = [] :=
    (importInsertions_filter (createSourceFile text) options).2.2.mpr
      (List.any_eq_true.mpr himp)
  obtain ⟨-, hrec, hres⟩ := run_ok createSourceFile options tree text h [] har
  rw [hii] at hrec hres
  exact ⟨by simpa using hrec, by simpa using hres,
    read_write_of_read tree options.module text h⟩

/-- Witness for C9 at a concrete input: the base scenario with options
adding A from a, both already present. -/
theorem bothPresent_noChange_witness :
    (importAndAddModule baseParse ⟨"m.ts", "A", "a"⟩ baseTree).recorded = [] ∧
    (importAndAddModule baseParse ⟨"m.ts", "A", "a"⟩ baseTree).result =
      .ok (baseTree.write "m.ts" baseText) ∧
    ∀ p, (baseTree.write "m.ts" baseText).read p = baseTree.read p :=
  bothPresent_noChange baseParse ⟨"m.ts", "A", "a"⟩ baseTree baseText rfl (by decide)
    baseDecorator [ArrElem.mk "A" 47] rfl rfl (by decide)

/-- C10: the per-statement import test is total and treats an import
declaration without an import clause (a side-effect import) or without
named bindings (a default or namespace import) as non-matching, by
optional access rather than by raising: the test simply returns false on
both shapes, so such statements never satisfy the duplicate check. -/
theorem optionalBindings_nonMatching (options : Options) (spec : String) (e : Nat) :
    matchesImport options (TsNode.importDecl spec none e) = false ∧
    matchesImport options (TsNode.importDecl spec (some ⟨none⟩) e) = false := by
  constructor <;> simp [matchesImport]

end ImportModuleSchematic
